import Mathlib

/-!
Verification development for the `docusaurus-scalar` plugin
(`packages/docusaurus-scalar/src/index.ts`).

The source file contains two variants of the plugin:
* the *structured* variant (nav/route sub-objects, `typeof a[k] !== 'undefined'`
  merge semantics), embedded below in namespace `Structured`;
* the *flat* variant (top-level `label` / `routePath` / `category` fields,
  `source[k] || baseConfig[k]` merge semantics with special `routePath`
  handling), embedded in namespace `Flat`.

JavaScript `undefined` is modelled by `Option.none`; JS truthiness of the
string/boolean option fields is modelled by `truthyS` / `truthyB`.  Errors
(`throw`, promise rejections) are modelled with `Except JsError`; `Promise.all`
is modelled by sequencing (it rejects iff some member rejects, which is the
only fact the claims use).  External libraries are modelled as follows:
lodash `_.kebabCase` is translated faithfully for ASCII inputs (see
`kebabCase` below), Node `path.posix.join` is translated for arguments
without `.`/`..` segments (see `posixJoin`), and the filesystem / globbing /
OpenAPI-parsing effects are abstracted into an explicit environment `FsEnv`.
-/

set_option autoImplicit false

/-- JavaScript exception values as they matter to this plugin: either a thrown
string (the plugin throws string literals) or an `Error` object carrying a
message (rejections from `fs`, parsers, ...). -/
inductive JsError where
  | thrown (s : String)
  | errObj (message : String)
deriving DecidableEq, Repr

/-- Warning text produced by the per-file `catch` of the flat variant:
`typeof e === "string"` logs `e.toUpperCase()`, `e instanceof Error` logs
`e.message`. -/
def warnMsg : JsError → String
  | JsError.thrown s => s.toUpper
  | JsError.errObj m => m

/-- JS truthiness of an optional string: `undefined` and `""` are falsy. -/
def truthyS : Option String → Bool
  | some s => s != ""
  | none => false

/-- JS truthiness of an optional boolean: `undefined` and `false` are falsy. -/
def truthyB : Option Bool → Bool
  | some b => b
  | none => false

/-- The JS idiom `x || ""` for an optional string. -/
def strFalsyD (a : Option String) : String := a.getD ""

/-- One merged field of the structured variant:
`typeof a[k] !== 'undefined' ? a[k] : b[k]`. -/
def definedOr {α : Type} (a b : Option α) : Option α :=
  match a with
  | some v => some v
  | none => b

/-- One merged field of the flat variant: `a || b` on optional strings. -/
def jsOrS (a b : Option String) : Option String :=
  if truthyS a then a else b

/-- One merged field of the flat variant: `a || b` on optional booleans. -/
def jsOrB (a b : Option Bool) : Option Bool :=
  if truthyB a then a else b

/-! ### Character classes (ASCII) used by the lodash `words` tokenizer -/

def isUp (c : Char) : Bool := 'A' ≤ c && c ≤ 'Z'

def isLow (c : Char) : Bool := 'a' ≤ c && c ≤ 'z'

def isDigitC (c : Char) : Bool := '0' ≤ c && c ≤ '9'

def isLetterC (c : Char) : Bool := isUp c || isLow c

def isAlnum (c : Char) : Bool := isLetterC c || isDigitC c

/-- ASCII model of `String.prototype.toLowerCase` as used by lodash when
joining words. -/
def toLowerChar (c : Char) : Char :=
  match c with
  | 'A' => 'a' | 'B' => 'b' | 'C' => 'c' | 'D' => 'd' | 'E' => 'e'
  | 'F' => 'f' | 'G' => 'g' | 'H' => 'h' | 'I' => 'i' | 'J' => 'j'
  | 'K' => 'k' | 'L' => 'l' | 'M' => 'm' | 'N' => 'n' | 'O' => 'o'
  | 'P' => 'p' | 'Q' => 'q' | 'R' => 'r' | 'S' => 's' | 'T' => 't'
  | 'U' => 'u' | 'V' => 'v' | 'W' => 'w' | 'X' => 'x' | 'Y' => 'y'
  | 'Z' => 'z'
  | other => other

/-! ### JS `String.prototype.split` on a separator character -/

def splitCharAux (sep : Char) : List Char → List Char → List (List Char)
  | [], acc => [ acc.reverse ]
  | c :: cs, acc =>
    if c = sep then acc.reverse :: splitCharAux sep cs []
    else splitCharAux sep cs (c :: acc)

/-- Model of JS `s.split(sep)` for a one-character separator (also used for
`path.parse`).  `"".split(sep) = [""]`, `"a/b".split("/") = ["a","b"]`. -/
def splitChar (sep : Char) (s : String) : List String :=
  (splitCharAux sep s.data []).map (fun l => String.mk l)

/-! ### lodash `words` / `kebabCase`, ASCII-faithful model

`_.kebabCase(s)` is `words(deburr(s).replace(reApos, '')).map(lower).join('-')`.
On ASCII input `deburr` is the identity.  `words` picks the Unicode tokenizer
when the string contains a case transition, a letter/digit boundary, or any
character outside `[a-zA-Z0-9 ]`, and otherwise matches runs of alphanumeric
characters.  The Unicode tokenizer is modelled for ASCII text: the ordinal
(`1st`, `2nd`, ...), emoji and non-ASCII word forms of the lodash regex are
not modelled, contractions are vacuous because apostrophes were removed. -/

def apos : Char := Char.ofNat 39

/-- Does lodash choose the Unicode word tokenizer?  Mirrors `reHasUnicodeWord =
/[a-z][A-Z]|[A-Z]{2}[a-z]|[0-9][a-zA-Z]|[a-zA-Z][0-9]|[^a-zA-Z0-9 ]/`. -/
def hasUW : List Char → Bool
  | [] => false
  | c :: cs =>
    (!(isAlnum c || c = ' ')) ||
    (match cs with
     | [] => false
     | d :: ds =>
       (isLow c && isUp d) || (isDigitC c && isLetterC d) ||
       (isLetterC c && isDigitC d) ||
       (match ds with
        | e :: _ => isUp c && isUp d && isLow e
        | [] => false)) ||
    hasUW cs

/-- ASCII word runs, mirroring `reAsciiWord` (runs of alphanumerics; this
branch is only reached when every character is in `[a-zA-Z0-9 ]`). -/
def asciiWordsAux : List Char → List Char → List (List Char)
  | [], acc => if acc.isEmpty then [] else [ acc.reverse ]
  | c :: cs, acc =>
    if isAlnum c then asciiWordsAux cs (c :: acc)
    else (if acc.isEmpty then [] else [ acc.reverse ]) ++ asciiWordsAux cs []

/-- Match length of `rsUpper?rsLower+(?=break|upper|$)` at the head. -/
def altUpperLowerLook (l : List Char) : Nat :=
  match l with
  | [] => 0
  | c :: cs =>
    let u := if isUp c then 1 else 0
    let rest := if isUp c then cs else c :: cs
    let m := (rest.takeWhile isLow).length
    if m = 0 then 0
    else
      match rest.drop m with
      | [] => u + m
      | d :: _ => if isDigitC d then 0 else u + m

/-- Match length of `rsUpper+(?=break|upper lower|$)` at the head (with the
regex engine's backtracking of the greedy `+`). -/
def altUppersLook (l : List Char) : Nat :=
  let m := (l.takeWhile isUp).length
  if m = 0 then 0
  else
    match l.drop m with
    | [] => m
    | d :: _ =>
      if !(isAlnum d) then m
      else if isLow d then (if 2 ≤ m then m - 1 else 0)
      else 0

/-- Match length of `rsUpper?rsLower+` (no lookahead) at the head. -/
def altUpperLowers (l : List Char) : Nat :=
  match l with
  | [] => 0
  | c :: cs =>
    let u := if isUp c then 1 else 0
    let rest := if isUp c then cs else c :: cs
    let m := (rest.takeWhile isLow).length
    if m = 0 then 0 else u + m

/-- Match length of `rsUpper+` (no lookahead) at the head. -/
def altUppers (l : List Char) : Nat := (l.takeWhile isUp).length

/-- Match length of `\d+` at the head. -/
def altDigits (l : List Char) : Nat := (l.takeWhile isDigitC).length

/-- First Unicode-word alternative that matches at the head of the list,
in the order of the lodash regex alternation. -/
def uniTokenLen (l : List Char) : Nat :=
  let a1 := altUpperLowerLook l
  if a1 ≠ 0 then a1 else
  let a2 := altUppersLook l
  if a2 ≠ 0 then a2 else
  let a3 := altUpperLowers l
  if a3 ≠ 0 then a3 else
  let a4 := altUppers l
  if a4 ≠ 0 then a4 else
  altDigits l

/-- Global regex scan of the Unicode word tokenizer: emit the alternative
matching at the current position, or advance one character.  Fuelled so that
it is structurally recursive (fuel `l.length` always suffices). -/
def uniWordsAux : Nat → List Char → List (List Char)
  | 0, _ => []
  | _ + 1, [] => []
  | fuel + 1, c :: cs =>
    let n := uniTokenLen (c :: cs)
    if n = 0 then uniWordsAux fuel cs
    else (c :: cs).take n :: uniWordsAux fuel ((c :: cs).drop n)

/-- lodash `words` on an apostrophe-stripped character list. -/
def wordsOf (l : List Char) : List (List Char) :=
  if hasUW l then uniWordsAux l.length l else asciiWordsAux l []

def joinDashChars : List (List Char) → List Char
  | [] => []
  | [w] => w
  | w :: ws => w ++ '-' :: joinDashChars ws

/-- lodash `_.kebabCase` (ASCII model, see the section comment). -/
def kebabCase (s : String) : String :=
  String.mk (joinDashChars ((wordsOf (s.data.filter (fun c => c ≠ apos))).map
    (fun w => w.map toLowerChar)))

/-! ### Node `path.posix.join` -/

def joinSegsChars : List (List Char) → List Char
  | [] => []
  | [w] => w
  | w :: ws => w ++ '/' :: joinSegsChars ws

/-- `xs.join("/")` on strings. -/
def joinSegs (xs : List String) : String := String.mk (joinSegsChars (xs.map String.data))

/-- The normalization step of `path.posix.join`: rebuild from the non-empty
`/`-separated segments, the absolute flag and the trailing-separator flag. -/
def posixAssemble (abs : Bool) (segs : List String) (trail : Bool) : String :=
  if segs.isEmpty then (if abs then "/" else ".")
  else (if abs then "/" else "") ++ joinSegs segs ++ (if trail then "/" else "")

/-- The non-empty `/`-separated segments of the non-empty join arguments. -/
def posixSegs (ps : List String) : List String :=
  ((ps.map (fun q => splitChar '/' q)).flatten).filter (fun q => q != "")

/-- Model of Node `path.posix.join`: drop empty arguments, concatenate with
`/`, then normalize (collapse repeated separators, keep one leading `/` when
the first non-empty argument is absolute, keep one trailing `/` when the last
non-empty argument ends in `/`).  Faithful for arguments that contain no `.`
or `..` path segments, which is the case at every call site modelled here. -/
def posixJoin (parts : List String) : String :=
  match parts.filter (fun p => p != "") with
  | [] => "."
  | p :: ps =>
    posixAssemble (decide (((p :: ps).headD "").data.head? = some '/'))
      (posixSegs (p :: ps))
      (decide (((p :: ps).getLastD "").data.getLast? = some '/'))

/-! ### `path.parse` pieces used by the plugin -/

/-- The `dir` of `path.parse`: everything before the last separator. -/
def parseDir (file : String) : String := joinSegs ((splitChar '/' file).dropLast)

/-- The `base` of `path.parse`: everything after the last separator. -/
def parseBase (file : String) : String := (splitChar '/' file).getLastD ""

/-- The `name` of `path.parse`: the base name without its last extension (a
leading dot does not start an extension).  The flat variant's
`base.substring(0, base.lastIndexOf(ext))` computes the same string. -/
def parseName (file : String) : String :=
  let base := parseBase file
  let rev := base.data.reverse
  match rev.dropWhile (fun c => c ≠ '.') with
  | [] => base
  | [_] => base
  | _ :: before => String.mk before.reverse

/-! ### Shared data for both variants: parsed documents, navbar, environment -/

/-- A parsed OpenAPI document, abstracted to the only field the plugin ever
consults (`specification?.info?.title`). -/
structure OpenAPIDoc where
  title : Option String := none
deriving DecidableEq, Repr

/-- What `fsp.stat` reports for an existing path. -/
inductive FileKind where
  | dir
  | file
  | other
deriving DecidableEq, Repr

/-- The filesystem / network / parser effects, abstracted into a deterministic
environment.  `stat p = none` models an `ENOENT` rejection of `fsp.stat`;
`glob p` models the globby results for `cwd = p` (globby yields `[]` for a
non-existent cwd, captured by `FsEnv.wf`); `specContent` models the structured
variant's `loadSpecContent` (load + dereference, may reject, and the schema
may come back `undefined`); `readFile` models `fsp.readFile`; `resolveTitle`
models the flat variant's `resolve(content).specification?.info.title`. -/
structure FsEnv where
  stat : String → Option FileKind
  glob : String → List String
  specContent : String → Except JsError (Option OpenAPIDoc)
  readFile : String → Except JsError String
  resolveTitle : String → Option String

/-- Globby returns no matches when the cwd does not exist. -/
def FsEnv.wf (env : FsEnv) : Prop :=
  ∀ p, env.stat p = none → env.glob p = []

/-- One item of `themeConfig.navbar.items`: either a plain entry
(`{label, to, position}`, no `type` field — `to` is called `dest` because
`to` is a Lean keyword) or a dropdown
(`{type: "dropdown", label, items, position}`). -/
inductive NavItem where
  | entry (label dest position : String)
  | dropdown (label : String) (items : List NavItem) (position : String)

/-- The category branch of `addToNav`, identical in both variants: scan the
top-level items for a dropdown whose label is the category and push into it;
if none is found, push a fresh dropdown at the end. -/
def addToNavCat (specNav : NavItem) (category : String) : List NavItem → List NavItem
  | [] => [ NavItem.dropdown category [ specNav ] "left" ]
  | NavItem.dropdown l its p :: rest =>
    if l = category then NavItem.dropdown l (its ++ [ specNav ]) p :: rest
    else NavItem.dropdown l its p :: addToNavCat specNav category rest
  | item :: rest => item :: addToNavCat specNav category rest

/-- The error string thrown by `loadSpecFromContent` in both variants. -/
def contentErr : String := "Specification content has not been loaded"

namespace Structured

/-- `NavConfig` of the structured variant. -/
structure NavConfig where
  category : Option String := none
  label : Option String := none
  labelFromSpec : Option Bool := none
  categoryFromPath : Option Bool := none
  labelFromFilename : Option Bool := none
deriving DecidableEq, Repr

/-- `RouteConfig` of the structured variant. -/
structure RouteConfig where
  route : Option String := none
  routeFromSpec : Option Bool := none
  routeFromPath : Option Bool := none
deriving DecidableEq, Repr

/-- `SourcelessConfig`: the pass-through reference-configuration fields
(represented by the two used in the README examples) plus the `nav` and
`route` sub-objects. -/
structure SourcelessConfig where
  showSidebar : Option Bool := none
  hideModels : Option Bool := none
  nav : Option NavConfig := none
  route : Option RouteConfig := none
deriving DecidableEq, Repr

/-- The `spec` sub-object: `{ content }`. -/
structure SpecObj where
  content : Option OpenAPIDoc := none
deriving DecidableEq, Repr

/-- `SpecConfig` of the structured variant. -/
structure SpecConfig extends SourcelessConfig where
  spec : Option SpecObj := none
deriving DecidableEq, Repr

/-- `PathConfig` of the structured variant. -/
structure PathConfig extends SourcelessConfig where
  path : String
  includeGlobs : Option (List String) := none
  excludeGlobs : Option (List String) := none
deriving DecidableEq, Repr

/-- The inner `merge` helper of `mergeConfig` applied to the `nav`
sub-objects: per key of either input, `typeof a[k] !== 'undefined' ? a[k] :
b[k]` (an `undefined` sub-object acts as `{}`). -/
def mergeNav (a b : Option NavConfig) : NavConfig :=
  { category := definedOr (a.bind (fun n => n.category)) (b.bind (fun n => n.category)),
    label := definedOr (a.bind (fun n => n.label)) (b.bind (fun n => n.label)),
    labelFromSpec := definedOr (a.bind (fun n => n.labelFromSpec)) (b.bind (fun n => n.labelFromSpec)),
    categoryFromPath := definedOr (a.bind (fun n => n.categoryFromPath)) (b.bind (fun n => n.categoryFromPath)),
    labelFromFilename := definedOr (a.bind (fun n => n.labelFromFilename)) (b.bind (fun n => n.labelFromFilename)) }

/-- The inner `merge` helper applied to the `route` sub-objects. -/
def mergeRoute (a b : Option RouteConfig) : RouteConfig :=
  { route := definedOr (a.bind (fun r => r.route)) (b.bind (fun r => r.route)),
    routeFromSpec := definedOr (a.bind (fun r => r.routeFromSpec)) (b.bind (fun r => r.routeFromSpec)),
    routeFromPath := definedOr (a.bind (fun r => r.routeFromPath)) (b.bind (fun r => r.routeFromPath)) }

/-- `mergeConfig` of the structured variant: the top-level rest fields are
merged with the `typeof`-undefined rule and the `nav`/`route` sub-objects are
merged independently with the same rule (the result always carries `nav` and
`route` objects). -/
def mergeConfig (source base : SourcelessConfig) : SourcelessConfig :=
  { showSidebar := definedOr source.showSidebar base.showSidebar,
    hideModels := definedOr source.hideModels base.hideModels,
    nav := some (mergeNav source.nav base.nav),
    route := some (mergeRoute source.route base.route) }

/-- `config.spec?.content`. -/
def contentOf (cfg : SpecConfig) : Option OpenAPIDoc := cfg.spec.bind (fun sp => sp.content)

/-- The route segments built by `loadSpecFromContent`: configured route and
(when `routeFromSpec` is truthy) the validated title, each split on `/` and
kebab-cased piecewise. -/
def derivedSegs (cfg : SpecConfig) (doc : OpenAPIDoc) : List String :=
  (([ strFalsyD (cfg.route.bind (fun r => r.route)),
      if truthyB (cfg.route.bind (fun r => r.routeFromSpec)) then strFalsyD doc.title else "" ]).map
    (fun seg => (splitChar '/' seg).map kebabCase)).flatten

/-- `loadSpecFromContent` of the structured variant: throws when the spec
content is not loaded, otherwise rewrites `nav` (spec-title label when
`labelFromSpec`, else the configured label) and replaces `route` by the
kebab-cased joined route. -/
def loadSpecFromContent (cfg : SpecConfig) : Except JsError SpecConfig :=
  match contentOf cfg with
  | some doc =>
    Except.ok { cfg with
      nav := cfg.nav.map (fun n =>
        { label := if truthyB n.labelFromSpec then doc.title else n.label,
          category := n.category }),
      route := some { route := some (posixJoin ( "/" :: derivedSegs cfg doc)) } }
  | none => Except.error (JsError.thrown contentErr)

/-- `loadSpecFromFile` of the structured variant: loads the content via
`loadSpecContent` (a rejection propagates — there is no catch here), builds
the per-file config (filename label, path category, path route) and hands it
to `loadSpecFromContent`. -/
def loadSpecFromFile (env : FsEnv) (source : PathConfig) (file : String) :
    Except JsError SpecConfig :=
  match env.specContent (source.path ++ "/" ++ file) with
  | Except.error e => Except.error e
  | Except.ok content =>
    loadSpecFromContent
      { showSidebar := source.showSidebar,
        hideModels := source.hideModels,
        spec := some { content := content },
        nav := some
          { labelFromSpec := source.nav.bind (fun n => n.labelFromSpec),
            categoryFromPath := source.nav.bind (fun n => n.categoryFromPath),
            labelFromFilename := source.nav.bind (fun n => n.labelFromFilename),
            label :=
              if truthyB (source.nav.bind (fun n => n.labelFromFilename))
              then some (parseName file) else none,
            category :=
              if truthyS (source.nav.bind (fun n => n.category)) ||
                 truthyB (source.nav.bind (fun n => n.categoryFromPath))
              then some ((splitChar '/' file).headD "") else none },
        route := some
          { routeFromSpec := source.route.bind (fun r => r.routeFromSpec),
            routeFromPath := source.route.bind (fun r => r.routeFromPath),
            route := some (posixJoin ( "/" :: strFalsyD (source.route.bind (fun r => r.route)) ::
              (if truthyB (source.route.bind (fun r => r.routeFromPath))
               then splitChar '/' (parseDir file) ++ [ parseName file ]
               else []))) } }

/-- The `Promise.all` over the per-file loads of one source: rejects as soon
as any file rejects (there is no per-file catch in this variant). -/
def loadFiles (env : FsEnv) (merged : PathConfig) : List String → Except JsError (List SpecConfig)
  | [] => Except.ok []
  | f :: fs =>
    match loadSpecFromFile env merged f with
    | Except.error e => Except.error e
    | Except.ok c =>
      match loadFiles env merged fs with
      | Except.error e => Except.error e
      | Except.ok rest => Except.ok (c :: rest)

/-- The per-source merged configuration of `loadSpecsFromPath`
(`mergeConfig(source, baseConfig) as PathConfig`: the path-only keys come
from the source alone). -/
def mergedPathConfig (source : PathConfig) (base : SourcelessConfig) : PathConfig :=
  { toSourcelessConfig := mergeConfig source.toSourcelessConfig base,
    path := source.path, includeGlobs := source.includeGlobs, excludeGlobs := source.excludeGlobs }

/-- The files of one source: globby expansion for a directory, the path
itself for a file, nothing otherwise. -/
def sourceFiles (env : FsEnv) (source : PathConfig) (kind : FileKind) : List String :=
  match kind with
  | FileKind.dir => env.glob source.path
  | FileKind.file => [ source.path ]
  | FileKind.other => []

/-- `loadSpecsFromPath` of the structured variant: per source, `fsp.stat`
(whose rejection on a missing path propagates), merge with the base config,
expand a directory through globby (or take the single file), and load every
file; the surrounding `Promise.all` rejects when anything rejects. -/
def loadSpecsFromPath (env : FsEnv) (paths : List PathConfig) (base : SourcelessConfig) :
    Except JsError (List SpecConfig) :=
  match paths with
  | [] => Except.ok []
  | source :: rest =>
    match env.stat source.path with
    | none => Except.error (JsError.errObj ( "ENOENT: no such file or directory, stat " ++ source.path))
    | some kind =>
      match loadFiles env (mergedPathConfig source base) (sourceFiles env source kind) with
      | Except.error e => Except.error e
      | Except.ok specs =>
        match loadSpecsFromPath env rest base with
        | Except.error e => Except.error e
        | Except.ok others => Except.ok (specs ++ others)

/-- `addToNav` of the structured variant: only acts when `nav` is present and
both label and route are truthy; with a truthy category it inserts through
the dropdown scan, otherwise appends a plain entry. -/
def addToNav (items : List NavItem) (config : SpecConfig) : List NavItem :=
  match config.nav with
  | none => items
  | some n =>
    if truthyS n.label && truthyS (config.route.bind (fun r => r.route)) then
      let specNav := NavItem.entry (strFalsyD n.label)
        (strFalsyD (config.route.bind (fun r => r.route))) "left"
      if truthyS n.category then addToNavCat specNav (strFalsyD n.category) items
      else items ++ [ specNav ]
    else items

end Structured

namespace Flat

/-- `BaseConfig` of the flat variant: the flat `label` / `routePath` /
`category` fields plus the pass-through reference-configuration fields. -/
structure BaseConfig where
  label : Option String := none
  routePath : Option String := none
  category : Option String := none
  showSidebar : Option Bool := none
  hideModels : Option Bool := none
deriving DecidableEq, Repr

/-- The `spec` sub-object of the flat variant: raw file / fetched content. -/
structure SpecObj where
  content : Option String := none
deriving DecidableEq, Repr

/-- `SpecConfig` of the flat variant. -/
structure SpecConfig extends BaseConfig where
  spec : Option SpecObj := none
deriving DecidableEq, Repr

/-- `PathConfig` of the flat variant. -/
structure PathConfig extends BaseConfig where
  path : String
  includeGlobs : Option (List String) := none
  excludeGlobs : Option (List String) := none
deriving DecidableEq, Repr

/-- `mergeConfig` of the flat variant: per key, `source[k] || baseConfig[k]`,
except that a `routePath` truthy on both sides becomes
`` `${baseConfig[k]}/${source[k]}` ``. -/
def mergeConfig (source base : BaseConfig) : BaseConfig :=
  { label := jsOrS source.label base.label,
    category := jsOrS source.category base.category,
    showSidebar := jsOrB source.showSidebar base.showSidebar,
    hideModels := jsOrB source.hideModels base.hideModels,
    routePath :=
      if truthyS base.routePath && truthyS source.routePath
      then some (strFalsyD base.routePath ++ "/" ++ strFalsyD source.routePath)
      else jsOrS source.routePath base.routePath }

/-- `findSpecFiles`: globby over the source path (no stat guard; a missing
cwd yields no matches). -/
def findSpecFiles (env : FsEnv) (source : PathConfig) : List String := env.glob source.path

/-- `config.spec?.content` is truthy: present and not the empty string. -/
def contentTruthy (cfg : SpecConfig) : Option String :=
  match cfg.spec.bind (fun sp => sp.content) with
  | some text => if text = "" then none else some text
  | none => none

/-- `loadSpecFromContent` of the flat variant: throws when the content is
falsy; otherwise builds `{label: config.label || resolvedTitle, ...config,
routePath: kebab-joined}` — note that the spread re-overwrites `label` with
`config.label` whenever that key is present, so the resolved title only
survives when no `label` was configured, and that `path.join(..., "/")`
leaves a trailing separator. -/
def loadSpecFromContent (env : FsEnv) (config : SpecConfig) : Except JsError SpecConfig :=
  match contentTruthy config with
  | some text =>
    Except.ok { config with
      label :=
        match config.label with
        | some l => some l
        | none => env.resolveTitle text,
      routePath := some ( "/" ++ posixJoin
        ((splitChar '/' (strFalsyD config.routePath)).map kebabCase ++ [ "/" ])) }
  | none => Except.error (JsError.thrown contentErr)

/-- `loadSpecFromFile` of the flat variant: read the file (a rejection
propagates to the caller's catch), merge with the base config, default the
category to the parent path segment and extend the route path with the
file's directory segments and base name. -/
def loadSpecFromFile (env : FsEnv) (source : PathConfig) (file : String) (base : BaseConfig) :
    Except JsError SpecConfig :=
  match env.readFile (source.path ++ "/" ++ file) with
  | Except.error e => Except.error e
  | Except.ok text =>
    let merged := mergeConfig source.toBaseConfig base
    loadSpecFromContent env
      { label := merged.label,
        showSidebar := merged.showSidebar,
        hideModels := merged.hideModels,
        spec := some { content := some text },
        category :=
          if truthyS merged.category then merged.category
          else (splitChar '/' file).reverse.get? 1,
        routePath := some (posixJoin ( "/" :: strFalsyD merged.routePath ::
          (splitChar '/' (parseDir file) ++ [ parseName file ]))) }

/-- The per-file loop of the flat `loadSpecsFromPath`, with its try/catch: a
failing file contributes no spec and one logged warning. -/
def processFiles (env : FsEnv) (source : PathConfig) (base : BaseConfig) :
    List String → List SpecConfig × List String
  | [] => ([], [])
  | f :: fs =>
    let rest := processFiles env source base fs
    match loadSpecFromFile env source f base with
    | Except.ok c => (c :: rest.1, rest.2)
    | Except.error e => (rest.1, warnMsg e :: rest.2)

/-- `loadSpecsFromPath` of the flat variant: per source, find the files and
process them with the per-file catch; results and warnings of all sources are
concatenated and nothing rejects. -/
def loadSpecsFromPath (env : FsEnv) (paths : List PathConfig) (base : BaseConfig) :
    List SpecConfig × List String :=
  match paths with
  | [] => ([], [])
  | source :: rest =>
    let here := processFiles env source base (findSpecFiles env source)
    let there := loadSpecsFromPath env rest base
    (here.1 ++ there.1, here.2 ++ there.2)

/-- `addToNav` of the flat variant: same algorithm as the structured one over
the flat fields. -/
def addToNav (items : List NavItem) (config : SpecConfig) : List NavItem :=
  if truthyS config.label && truthyS config.routePath then
    let specNav := NavItem.entry (strFalsyD config.label) (strFalsyD config.routePath) "left"
    if truthyS config.category then addToNavCat specNav (strFalsyD config.category) items
    else items ++ [ specNav ]
  else items

end Flat

/-! ### Navbar observations used by the claims -/

/-- Is this item a dropdown labelled `L`? (the `navItem.type === "dropdown" &&
navItem.label === category` test of `addToNav`). -/
def isDropLabeled (L : String) : NavItem → Bool
  | NavItem.dropdown l _ _ => decide (l = L)
  | _ => false

/-- The top-level dropdown items labelled `L`. -/
def dropsLabeled (L : String) (items : List NavItem) : List NavItem :=
  items.filter (isDropLabeled L)

/-! ### Concrete fixtures used by the claim theorems -/

/-- An inert environment; per-claim fixtures override the relevant fields. -/
def envInert : FsEnv :=
  { stat := fun _ => none,
    glob := fun _ => [],
    specContent := fun _ => Except.ok none,
    readFile := fun _ => Except.error (JsError.errObj "ENOENT"),
    resolveTitle := fun _ => none }

/-- C2 counterexample input: an explicit label together with
`labelFromSpec: true` and a spec title. -/
def cfgC2cex : Structured.SpecConfig :=
  { nav := some { label := some "Explicit", labelFromSpec := some true },
    spec := some { content := some { title := some "Spec Title" } } }

/-- C4 fixture: configured base route `docs`, `routeFromSpec`, title
`My API v2`. -/
def cfgC4fix : Structured.SpecConfig :=
  { route := some { route := some "docs", routeFromSpec := some true },
    spec := some { content := some { title := some "My API v2" } } }

/-- C4 flat fixture: the route path a file under `docs` would get. -/
def cfgC4flat : Flat.SpecConfig :=
  { routePath := some "/docs/My API v2", spec := some { content := some "raw" } }

/-- C5 environment: every file parses to a document titled `Petstore`. -/
def envC5fix : FsEnv :=
  { envInert with specContent := fun _ => Except.ok (some { title := some "Petstore" }) }

/-- C5 failing input: an explicit category and `categoryFromPath: false`. -/
def srcC5bug : Structured.PathConfig :=
  { path := "./specifications",
    nav := some { category := some "My Category", categoryFromPath := some false } }

/-- C5 spec-example input: no explicit category, `categoryFromPath: true`. -/
def srcC5ok : Structured.PathConfig :=
  { path := "./specifications", nav := some { categoryFromPath := some true } }

/-- C5 flat input: an explicit category only. -/
def srcC5flat : Flat.PathConfig :=
  { path := "./specifications", category := some "My Category" }

/-- C5 flat environment: files read fine. -/
def envC5flat : FsEnv :=
  { envInert with readFile := fun _ => Except.ok "raw", resolveTitle := fun _ => some "Petstore" }

/-- C3/C6 environment: directory `good` holds `a.json` (loads fine) and
`bad.json` (whose load and read both reject); path `missing` does not
exist. -/
def envLoadFix : FsEnv :=
  { stat := fun p => if p = "good" then some FileKind.dir else none,
    glob := fun p => if p = "good" then [ "a.json", "bad.json" ] else [],
    specContent := fun p =>
      if p = "good/bad.json" then Except.error (JsError.errObj "parse failed")
      else Except.ok (some { title := some "T" }),
    readFile := fun p =>
      if p = "good/bad.json" then Except.error (JsError.errObj "read failed")
      else Except.ok "text",
    resolveTitle := fun _ => some "T" }

/-- The structured path source over the `good` directory. -/
def srcGoodS : Structured.PathConfig := { path := "good" }

/-- The structured path source over the missing path. -/
def srcMissingS : Structured.PathConfig := { path := "missing" }

/-- The flat path source over the `good` directory. -/
def srcGoodF : Flat.PathConfig := { path := "good" }

/-- The flat path source over the missing path. -/
def srcMissingF : Flat.PathConfig := { path := "missing" }

/-- C7 counterexample: a fully-defined flat configuration (truthy
`routePath`). -/
def cFullFix : Flat.BaseConfig :=
  { label := some "l", routePath := some "r", category := some "c",
    showSidebar := some true, hideModels := some false }

/-- C9 fixture: first entry of the `Pets` category. -/
def cfgNav1 : Flat.SpecConfig :=
  { label := some "Store API", routePath := some "/pets/store", category := some "Pets" }

/-- C9 fixture: second entry of the `Pets` category. -/
def cfgNav2 : Flat.SpecConfig :=
  { label := some "User API", routePath := some "/pets/user", category := some "Pets" }

/-- Unwrap a successful `Except`, with a default on the error side (used only
to phrase concrete witness statements). -/
def loadOk {e a : Type} (d : a) : Except e a → a
  | Except.ok v => v
  | Except.error _ => d

/-! ### Small facts about the JS-semantics helpers -/

theorem definedOr_some {α : Type} (v : α) (b : Option α) : definedOr (some v) b = some v := rfl

theorem definedOr_none {α : Type} (b : Option α) : definedOr none b = b := rfl

theorem definedOr_self {α : Type} (a : Option α) : definedOr a a = a := by
  cases a <;> rfl

theorem definedOr_of_isSome {α : Type} (a b : Option α) (h : a.isSome) : definedOr a b = a := by
  cases a
  · cases h
  · rfl

theorem jsOrS_of_truthy (a b : Option String) (h : truthyS a) : jsOrS a b = a := by
  simp [jsOrS, h]

theorem jsOrS_of_falsy (a b : Option String) (h : truthyS a = false) : jsOrS a b = b := by
  simp [jsOrS, h]

theorem jsOrB_of_truthy (a b : Option Bool) (h : truthyB a) : jsOrB a b = a := by
  simp [jsOrB, h]

theorem jsOrB_of_falsy (a b : Option Bool) (h : truthyB a = false) : jsOrB a b = b := by
  simp [jsOrB, h]

theorem jsOrS_self (a : Option String) : jsOrS a a = a := by
  unfold jsOrS
  split <;> rfl

theorem jsOrB_self (a : Option Bool) : jsOrB a a = a := by
  unfold jsOrB
  split <;> rfl

/-- Claim C1 (amended).  In the structured variant, `mergeConfig` maps every
key that is defined (not `undefined`) in the child to the child's value,
regardless of the parent's value, and every key undefined in the child to the
parent's value — including the keys of the independently merged `nav` and
`route` sub-objects.  In the flat variant the child's value wins only when it
is truthy: a child key that is undefined, and equally one defined with a
falsy value (`false`, `""`), inherits the parent's value, and a `routePath`
truthy on both sides is combined as `parent/child` instead of taken from the
child. -/
theorem mergeConfig_child_wins :
    (∀ (s b : Structured.SourcelessConfig),
      (s.showSidebar.isSome → (Structured.mergeConfig s b).showSidebar = s.showSidebar) ∧
      (s.showSidebar = none → (Structured.mergeConfig s b).showSidebar = b.showSidebar) ∧
      (s.hideModels.isSome → (Structured.mergeConfig s b).hideModels = s.hideModels) ∧
      (s.hideModels = none → (Structured.mergeConfig s b).hideModels = b.hideModels) ∧
      ((s.nav.bind (fun n => n.category)).isSome →
        (Structured.mergeConfig s b).nav.bind (fun n => n.category) = s.nav.bind (fun n => n.category)) ∧
      (s.nav.bind (fun n => n.category) = none →
        (Structured.mergeConfig s b).nav.bind (fun n => n.category) = b.nav.bind (fun n => n.category)) ∧
      ((s.nav.bind (fun n => n.label)).isSome →
        (Structured.mergeConfig s b).nav.bind (fun n => n.label) = s.nav.bind (fun n => n.label)) ∧
      (s.nav.bind (fun n => n.label) = none →
        (Structured.mergeConfig s b).nav.bind (fun n => n.label) = b.nav.bind (fun n => n.label)) ∧
      ((s.nav.bind (fun n => n.labelFromSpec)).isSome →
        (Structured.mergeConfig s b).nav.bind (fun n => n.labelFromSpec) = s.nav.bind (fun n => n.labelFromSpec)) ∧
      (s.nav.bind (fun n => n.labelFromSpec) = none →
        (Structured.mergeConfig s b).nav.bind (fun n => n.labelFromSpec) = b.nav.bind (fun n => n.labelFromSpec)) ∧
      ((s.nav.bind (fun n => n.categoryFromPath)).isSome →
        (Structured.mergeConfig s b).nav.bind (fun n => n.categoryFromPath) = s.nav.bind (fun n => n.categoryFromPath)) ∧
      (s.nav.bind (fun n => n.categoryFromPath) = none →
        (Structured.mergeConfig s b).nav.bind (fun n => n.categoryFromPath) = b.nav.bind (fun n => n.categoryFromPath)) ∧
      ((s.nav.bind (fun n => n.labelFromFilename)).isSome →
        (Structured.mergeConfig s b).nav.bind (fun n => n.labelFromFilename) = s.nav.bind (fun n => n.labelFromFilename)) ∧
      (s.nav.bind (fun n => n.labelFromFilename) = none →
        (Structured.mergeConfig s b).nav.bind (fun n => n.labelFromFilename) = b.nav.bind (fun n => n.labelFromFilename)) ∧
      ((s.route.bind (fun r => r.route)).isSome →
        (Structured.mergeConfig s b).route.bind (fun r => r.route) = s.route.bind (fun r => r.route)) ∧
      (s.route.bind (fun r => r.route) = none →
        (Structured.mergeConfig s b).route.bind (fun r => r.route) = b.route.bind (fun r => r.route)) ∧
      ((s.route.bind (fun r => r.routeFromSpec)).isSome →
        (Structured.mergeConfig s b).route.bind (fun r => r.routeFromSpec) = s.route.bind (fun r => r.routeFromSpec)) ∧
      (s.route.bind (fun r => r.routeFromSpec) = none →
        (Structured.mergeConfig s b).route.bind (fun r => r.routeFromSpec) = b.route.bind (fun r => r.routeFromSpec)) ∧
      ((s.route.bind (fun r => r.routeFromPath)).isSome →
        (Structured.mergeConfig s b).route.bind (fun r => r.routeFromPath) = s.route.bind (fun r => r.routeFromPath)) ∧
      (s.route.bind (fun r => r.routeFromPath) = none →
        (Structured.mergeConfig s b).route.bind (fun r => r.routeFromPath) = b.route.bind (fun r => r.routeFromPath))) ∧
    (∀ (s b : Flat.BaseConfig),
      (truthyS s.label → (Flat.mergeConfig s b).label = s.label) ∧
      (truthyS s.label = false → (Flat.mergeConfig s b).label = b.label) ∧
      (truthyS s.category → (Flat.mergeConfig s b).category = s.category) ∧
      (truthyS s.category = false → (Flat.mergeConfig s b).category = b.category) ∧
      (truthyB s.showSidebar → (Flat.mergeConfig s b).showSidebar = s.showSidebar) ∧
      (truthyB s.showSidebar = false → (Flat.mergeConfig s b).showSidebar = b.showSidebar) ∧
      (truthyB s.hideModels → (Flat.mergeConfig s b).hideModels = s.hideModels) ∧
      (truthyB s.hideModels = false → (Flat.mergeConfig s b).hideModels = b.hideModels) ∧
      (truthyS s.routePath → truthyS b.routePath = false →
        (Flat.mergeConfig s b).routePath = s.routePath) ∧
      (truthyS s.routePath = false → (Flat.mergeConfig s b).routePath = b.routePath) ∧
      (truthyS s.routePath → truthyS b.routePath →
        (Flat.mergeConfig s b).routePath =
          some (strFalsyD b.routePath ++ "/" ++ strFalsyD s.routePath))) := by
  constructor
  · intro s b
    refine ⟨fun h => definedOr_of_isSome _ _ h, fun h => by simp [Structured.mergeConfig, h, definedOr_none],
      fun h => definedOr_of_isSome _ _ h, fun h => by simp [Structured.mergeConfig, h, definedOr_none],
      ?_, ?_, ?_, ?_, ?_, ?_, ?_, ?_, ?_, ?_, ?_, ?_, ?_, ?_, ?_, ?_⟩ <;>
      · intro h
        first
          | exact definedOr_of_isSome _ _ h
          | simp [Structured.mergeConfig, Structured.mergeNav, Structured.mergeRoute, h, definedOr_none]
  · intro s b
    refine ⟨fun h => jsOrS_of_truthy _ _ h, ?_, fun h => jsOrS_of_truthy _ _ h, ?_,
      fun h => jsOrB_of_truthy _ _ h, ?_, fun h => jsOrB_of_truthy _ _ h, ?_, ?_, ?_, ?_⟩
    · intro h
      exact jsOrS_of_falsy _ _ h
    · intro h
      exact jsOrS_of_falsy _ _ h
    · intro h
      exact jsOrB_of_falsy _ _ h
    · intro h
      exact jsOrB_of_falsy _ _ h
    · intro hs hb
      simp [Flat.mergeConfig, hs, hb, jsOrS_of_truthy _ _ hs]
    · intro hs
      simp [Flat.mergeConfig, hs, jsOrS_of_falsy _ _ hs]
    · intro hs hb
      simp [Flat.mergeConfig, hs, hb]

/-- Claim C1, counterexample to the claim as stated: in the flat variant's
`mergeConfig` a child key defined with the (falsy) value `false` does not win
over the parent. -/
theorem mergeConfig_child_wins_cex :
    (Flat.mergeConfig { showSidebar := some false } { showSidebar := some true }).showSidebar =
      some true ∧
    (Flat.mergeConfig { showSidebar := some false } { showSidebar := some true }).showSidebar ≠
      ({ showSidebar := some false : Flat.BaseConfig }).showSidebar := by
  exact ⟨rfl, by decide⟩

/-- Claim C1, witness: the structured clauses at a concrete child/parent pair. -/
theorem mergeConfig_child_wins_witness :
    (Structured.mergeConfig { showSidebar := some false } { showSidebar := some true }).showSidebar =
      some false ∧
    (Structured.mergeConfig { hideModels := none } { hideModels := some true }).hideModels =
      some true := by
  constructor
  · exact (mergeConfig_child_wins.1 { showSidebar := some false } { showSidebar := some true }).1 rfl
  · exact ((mergeConfig_child_wins.1 { hideModels := none } { hideModels := some true }).2.2.2).1 rfl

/-- Claim C7 (amended).  Merging a configuration with itself is the identity
in the structured variant for every configuration whose `nav` and `route`
sub-objects are present (in particular for every fully-defined one).  In the
flat variant it is the identity only when `routePath` is not truthy: a
fully-defined configuration has a truthy `routePath` and is not a fixed
point, because `mergeConfig(c, c)` rewrites `routePath` to
`c.routePath/c.routePath`. -/
theorem merge_idempotent :
    (∀ (c : Structured.SourcelessConfig) (n : Structured.NavConfig) (r : Structured.RouteConfig),
      c.nav = some n → c.route = some r → Structured.mergeConfig c c = c) ∧
    (∀ (c : Flat.BaseConfig), truthyS c.routePath = false → Flat.mergeConfig c c = c) := by
  constructor
  · intro c n r hn hr
    have h : Structured.mergeConfig c c =
        { showSidebar := c.showSidebar, hideModels := c.hideModels,
          nav := some n, route := some r } := by
      unfold Structured.mergeConfig Structured.mergeNav Structured.mergeRoute
      rw [hn, hr]
      simp [definedOr_self]
    rw [h, ← hn, ← hr]
  · intro c h
    unfold Flat.mergeConfig
    rw [h]
    simp [jsOrS_self, jsOrB_self]

/-- Claim C7, counterexample to the claim as stated: a fully-defined flat
configuration is not a fixed point of the flat `mergeConfig`; its `routePath`
is duplicated. -/
theorem merge_idempotent_cex :
    Flat.mergeConfig cFullFix cFullFix ≠ cFullFix ∧
    (Flat.mergeConfig cFullFix cFullFix).routePath = some "r/r" := by
  exact ⟨by decide, rfl⟩

/-- Claim C7, witness: idempotence at a concrete fully-defined structured
configuration and at a concrete flat configuration without `routePath`. -/
theorem merge_idempotent_witness :
    Structured.mergeConfig
      { showSidebar := some true, hideModels := some false,
        nav := some { category := some "c", label := some "l", labelFromSpec := some true,
                      categoryFromPath := some false, labelFromFilename := some false },
        route := some { route := some "r", routeFromSpec := some true, routeFromPath := some false } }
      { showSidebar := some true, hideModels := some false,
        nav := some { category := some "c", label := some "l", labelFromSpec := some true,
                      categoryFromPath := some false, labelFromFilename := some false },
        route := some { route := some "r", routeFromSpec := some true, routeFromPath := some false } } =
      { showSidebar := some true, hideModels := some false,
        nav := some { category := some "c", label := some "l", labelFromSpec := some true,
                      categoryFromPath := some false, labelFromFilename := some false },
        route := some { route := some "r", routeFromSpec := some true, routeFromPath := some false } } ∧
    Flat.mergeConfig { label := some "l" } { label := some "m" } = { label := some "l" } := by
  constructor
  · exact merge_idempotent.1 _ _ _ rfl rfl
  · exact merge_idempotent.2 { label := some "l" } rfl

/-- Claim C10 (confirmed).  In the flat variant's `mergeConfig` the key
`routePath` is treated unlike every other key: when child and parent both
carry a truthy `routePath` the merged value is `parent + "/" + child`
(hierarchical nesting) rather than the child's value, while every other key
takes the child's value exactly when it is truthy and the parent's value
otherwise. -/
theorem flat_routePath_merge :
    ∀ (s b : Flat.BaseConfig),
      (truthyS s.routePath → truthyS b.routePath →
        (Flat.mergeConfig s b).routePath =
          some (strFalsyD b.routePath ++ "/" ++ strFalsyD s.routePath)) ∧
      (truthyS s.routePath → truthyS b.routePath = false →
        (Flat.mergeConfig s b).routePath = s.routePath) ∧
      (truthyS s.label → (Flat.mergeConfig s b).label = s.label) ∧
      (truthyS s.label = false → (Flat.mergeConfig s b).label = b.label) ∧
      (truthyS s.category → (Flat.mergeConfig s b).category = s.category) ∧
      (truthyS s.category = false → (Flat.mergeConfig s b).category = b.category) ∧
      (truthyB s.showSidebar → (Flat.mergeConfig s b).showSidebar = s.showSidebar) ∧
      (truthyB s.showSidebar = false → (Flat.mergeConfig s b).showSidebar = b.showSidebar) ∧
      (truthyB s.hideModels → (Flat.mergeConfig s b).hideModels = s.hideModels) ∧
      (truthyB s.hideModels = false → (Flat.mergeConfig s b).hideModels = b.hideModels) := by
  intro s b
  refine ⟨?_, ?_, fun h => jsOrS_of_truthy _ _ h, fun h => jsOrS_of_falsy _ _ h,
    fun h => jsOrS_of_truthy _ _ h, fun h => jsOrS_of_falsy _ _ h,
    fun h => jsOrB_of_truthy _ _ h, fun h => jsOrB_of_falsy _ _ h,
    fun h => jsOrB_of_truthy _ _ h, fun h => jsOrB_of_falsy _ _ h⟩
  · intro hs hb
    simp [Flat.mergeConfig, hs, hb]
  · intro hs hb
    simp [Flat.mergeConfig, hs, hb, jsOrS_of_truthy _ _ hs]

/-- Claim C10, witness: the hierarchical nesting and the truthy-wins rule at
concrete configurations. -/
theorem flat_routePath_merge_witness :
    (Flat.mergeConfig { routePath := some "group" } { routePath := some "specs" }).routePath =
      some "specs/group" ∧
    (Flat.mergeConfig { label := some "child" } { label := some "parent" }).label =
      some "child" := by
  constructor
  · exact (flat_routePath_merge { routePath := some "group" } { routePath := some "specs" }).1
      (by decide) (by decide)
  · exact (flat_routePath_merge { label := some "child" } { label := some "parent" }).2.2.1
      (by decide)

/-- Claim C8 (confirmed).  In both variants `loadSpecFromContent` throws
exactly the string `"Specification content has not been loaded"`, and it
throws it if and only if the spec content is absent (`undefined`, or — in the
flat variant, where content is a raw string — empty); when content is present
it succeeds and the result carries the derived route, so no partial route
ever escapes on the error path. -/
theorem content_guard :
    (∀ (cfg : Structured.SpecConfig),
      (Structured.loadSpecFromContent cfg = Except.error (JsError.thrown contentErr) ↔
        Structured.contentOf cfg = none) ∧
      (∀ e, Structured.loadSpecFromContent cfg = Except.error e → e = JsError.thrown contentErr) ∧
      (∀ doc, Structured.contentOf cfg = some doc →
        ∃ out, Structured.loadSpecFromContent cfg = Except.ok out ∧
          out.route = some { route := some (posixJoin ( "/" :: Structured.derivedSegs cfg doc)) })) ∧
    (∀ (env : FsEnv) (cfg : Flat.SpecConfig),
      (Flat.loadSpecFromContent env cfg = Except.error (JsError.thrown contentErr) ↔
        (cfg.spec.bind (fun sp => sp.content) = none ∨
         cfg.spec.bind (fun sp => sp.content) = some "")) ∧
      (∀ e, Flat.loadSpecFromContent env cfg = Except.error e → e = JsError.thrown contentErr) ∧
      (∀ text, Flat.contentTruthy cfg = some text →
        ∃ out, Flat.loadSpecFromContent env cfg = Except.ok out ∧
          out.routePath = some ( "/" ++ posixJoin
            ((splitChar '/' (strFalsyD cfg.routePath)).map kebabCase ++ [ "/" ])))) := by
  constructor
  · intro cfg
    refine ⟨?_, ?_, ?_⟩
    · unfold Structured.loadSpecFromContent
      cases h : Structured.contentOf cfg <;> simp
    · intro e he
      unfold Structured.loadSpecFromContent at he
      cases h : Structured.contentOf cfg <;> rw [h] at he <;> simp_all
    · intro doc hdoc
      unfold Structured.loadSpecFromContent
      rw [hdoc]
      exact ⟨_, rfl, rfl⟩
  · intro env cfg
    have hct : Flat.contentTruthy cfg = none ↔
        (cfg.spec.bind (fun sp => sp.content) = none ∨
         cfg.spec.bind (fun sp => sp.content) = some "") := by
      unfold Flat.contentTruthy
      cases h : cfg.spec.bind (fun sp => sp.content) with
      | none => simp
      | some text =>
        by_cases ht : text = "" <;> simp [ht]
    refine ⟨?_, ?_, ?_⟩
    · rw [← hct]
      unfold Flat.loadSpecFromContent
      cases h : Flat.contentTruthy cfg <;> simp
    · intro e he
      unfold Flat.loadSpecFromContent at he
      cases h : Flat.contentTruthy cfg <;> rw [h] at he <;> simp_all
    · intro text htext
      unfold Flat.loadSpecFromContent
      rw [htext]
      exact ⟨_, rfl, rfl⟩

/-- Claim C8, witness: the guard at concrete configurations — missing and
empty content throw the documented error, present content yields a route. -/
theorem content_guard_witness :
    Structured.loadSpecFromContent { spec := none } =
      Except.error (JsError.thrown contentErr) ∧
    Flat.loadSpecFromContent envInert { spec := some { content := some "" } } =
      Except.error (JsError.thrown contentErr) ∧
    ∃ out, Structured.loadSpecFromContent cfgC4fix = Except.ok out ∧
      out.route = some { route := some (posixJoin ( "/" ::
        Structured.derivedSegs cfgC4fix { title := some "My API v2" })) } := by
  refine ⟨?_, ?_, ?_⟩
  · exact ((content_guard.1 { spec := none }).1).mpr rfl
  · exact ((content_guard.2 envInert { spec := some { content := some "" } }).1).mpr (Or.inr rfl)
  · exact (content_guard.1 cfgC4fix).2.2 { title := some "My API v2" } rfl

/-- Claim C5.  Evaluation of the category derivation at the claim's inputs.
The first conjunct is the failing input for the claim as stated: in the
structured variant, with an explicit category `"My Category"` and
`categoryFromPath: false`, `loadSpecFromFile` still derives the category
`"petstore"` from the path — `source?.nav?.category ||
source?.nav?.categoryFromPath ? file.split(path.sep)[0] : undefined` groups
as `(category || categoryFromPath) ? ... : undefined`, contradicting the
adjacent comment "use a set category or use parent folder".  The remaining
conjuncts check the claim's own example (`petstore/openapi.json` with
`categoryFromPath` and no explicit category resolves to `"petstore"`) and
the flat variant, where a truthy explicit category does win. -/
theorem category_precedence_eval :
    (Structured.loadSpecFromFile envC5fix srcC5bug "petstore/openapi.json").map
        (fun c => c.nav.bind (fun n => n.category)) = Except.ok (some "petstore") ∧
    srcC5bug.nav.bind (fun n => n.category) = some "My Category" ∧
    (Structured.loadSpecFromFile envC5fix srcC5ok "petstore/openapi.json").map
        (fun c => c.nav.bind (fun n => n.category)) = Except.ok (some "petstore") ∧
    (Flat.loadSpecFromFile envC5flat srcC5flat "petstore/openapi.json" {}).map
        (fun c => c.category) = Except.ok (some "My Category") ∧
    (Flat.loadSpecFromFile envC5flat { path := "./specifications" } "petstore/openapi.json" {}).map
        (fun c => c.category) = Except.ok (some "petstore") := by
  exact ⟨rfl, rfl, rfl, rfl, rfl⟩

/-- Claim C2 (amended).  In the structured variant, whenever `labelFromSpec`
is truthy the derived label is the specification's title — even when an
explicit label is configured; the explicit label is only used when
`labelFromSpec` is falsy.  On the file-loading path the configured explicit
label is discarded altogether: after `loadSpecFromFile` the label is the spec
title when `labelFromSpec` is truthy, else the file's base name without
extension when `labelFromFilename` is truthy, else undefined.  In the flat
variant a truthy explicit label does take precedence over the spec title,
which is only resolved when no label is configured. -/
theorem label_precedence :
    (∀ (env : FsEnv) (source : Structured.PathConfig) (file : String) (doc : OpenAPIDoc)
        (out : Structured.SpecConfig),
      env.specContent (source.path ++ "/" ++ file) = Except.ok (some doc) →
      Structured.loadSpecFromFile env source file = Except.ok out →
      out.nav.bind (fun n => n.label) =
        (if truthyB (source.nav.bind (fun n => n.labelFromSpec)) then doc.title
         else if truthyB (source.nav.bind (fun n => n.labelFromFilename)) then
           some (parseName file)
         else none)) ∧
    (∀ (cfg : Structured.SpecConfig) (n : Structured.NavConfig) (doc : OpenAPIDoc)
        (out : Structured.SpecConfig),
      cfg.nav = some n → Structured.contentOf cfg = some doc →
      Structured.loadSpecFromContent cfg = Except.ok out →
      out.nav.bind (fun m => m.label) =
        (if truthyB n.labelFromSpec then doc.title else n.label)) ∧
    (∀ (env : FsEnv) (cfg out : Flat.SpecConfig) (l text : String),
      Flat.contentTruthy cfg = some text → cfg.label = some l →
      Flat.loadSpecFromContent env cfg = Except.ok out →
      out.label = some l) ∧
    (∀ (env : FsEnv) (cfg out : Flat.SpecConfig) (text : String),
      Flat.contentTruthy cfg = some text → cfg.label = none →
      Flat.loadSpecFromContent env cfg = Except.ok out →
      out.label = env.resolveTitle text) := by
  refine ⟨?_, ?_, ?_, ?_⟩
  · intro env source file doc out h hload
    unfold Structured.loadSpecFromFile at hload
    rw [h] at hload
    unfold Structured.loadSpecFromContent at hload
    simp [Structured.contentOf] at hload
    rw [← hload]
    simp
  · intro cfg n doc out hn hdoc hload
    unfold Structured.loadSpecFromContent at hload
    rw [hdoc] at hload
    simp at hload
    rw [← hload, hn]
    simp
  · intro env cfg out l text htext hl hload
    unfold Flat.loadSpecFromContent at hload
    rw [htext] at hload
    simp at hload
    rw [← hload, hl]
  · intro env cfg out text htext hl hload
    unfold Flat.loadSpecFromContent at hload
    rw [htext] at hload
    simp at hload
    rw [← hload, hl]

/-- Claim C2, counterexample to the claim as stated: with an explicit label
`"Explicit"` and `labelFromSpec` enabled, the structured variant derives the
spec title `"Spec Title"`, so the explicit label does not take precedence
over the spec title. -/
theorem label_precedence_cex :
    cfgC2cex.nav.bind (fun n => n.label) = some "Explicit" ∧
    (Structured.loadSpecFromContent cfgC2cex).map (fun c => c.nav.bind (fun n => n.label)) =
      Except.ok (some "Spec Title") ∧
    (some "Spec Title" : Option String) ≠ some "Explicit" := by
  exact ⟨rfl, rfl, by decide⟩

/-- Claim C2, witness: the amended label chain at concrete inputs — the spec
title wins over an explicit label when `labelFromSpec` is truthy, the
filename is used when only `labelFromFilename` is truthy, and in the flat
variant a truthy explicit label wins. -/
theorem label_precedence_witness :
    (loadOk {} (Structured.loadSpecFromContent cfgC2cex)).nav.bind (fun m => m.label) =
      some "Spec Title" ∧
    (loadOk {} (Structured.loadSpecFromFile envC5fix
        { path := "p", nav := some { labelFromFilename := some true } }
        "petstore/openapi.json")).nav.bind (fun n => n.label) = some "openapi" ∧
    (loadOk {} (Flat.loadSpecFromContent envC5flat
        { label := some "Explicit", spec := some { content := some "raw" } })).label =
      some "Explicit" := by
  refine ⟨?_, ?_, ?_⟩
  · exact label_precedence.2.1 cfgC2cex
      { label := some "Explicit", labelFromSpec := some true }
      { title := some "Spec Title" } _ rfl rfl rfl
  · exact label_precedence.1 envC5fix
      { path := "p", nav := some { labelFromFilename := some true } }
      "petstore/openapi.json" { title := some "Petstore" } _ rfl rfl
  · exact label_precedence.2.2.1 envC5flat
      { label := some "Explicit", spec := some { content := some "raw" } } _
      "Explicit" "raw" rfl rfl rfl

/-! ### Facts about the flat per-file catch and source fan-out -/

theorem processFiles_append (env : FsEnv) (source : Flat.PathConfig) (base : Flat.BaseConfig)
    (fs gs : List String) :
    Flat.processFiles env source base (fs ++ gs) =
      ((Flat.processFiles env source base fs).1 ++ (Flat.processFiles env source base gs).1,
       (Flat.processFiles env source base fs).2 ++ (Flat.processFiles env source base gs).2) := by
  induction fs with
  | nil => simp [Flat.processFiles]
  | cons f fs ih =>
    cases h : Flat.loadSpecFromFile env source f base <;>
      simp [Flat.processFiles, h, ih]

theorem loadSpecsFromPath_append (env : FsEnv) (base : Flat.BaseConfig)
    (ps qs : List Flat.PathConfig) :
    Flat.loadSpecsFromPath env (ps ++ qs) base =
      ((Flat.loadSpecsFromPath env ps base).1 ++ (Flat.loadSpecsFromPath env qs base).1,
       (Flat.loadSpecsFromPath env ps base).2 ++ (Flat.loadSpecsFromPath env qs base).2) := by
  induction ps with
  | nil => simp [Flat.loadSpecsFromPath]
  | cons p ps ih =>
    simp [Flat.loadSpecsFromPath, ih]

/-- Claim C3 (amended).  In the flat variant a per-file load/parse failure is
caught: the failing file contributes no spec and exactly one logged warning,
the results of every other file of the source and of every other source are
unchanged, and the per-path loader is total, so the error never escapes.  In
the structured variant there is no per-file catch: one failing file rejects
the whole `loadSpecsFromPath`. -/
theorem perFile_error_isolation :
    (∀ (env : FsEnv) (source : Flat.PathConfig) (base : Flat.BaseConfig)
        (fs1 fs2 : List String) (f : String) (e : JsError),
      Flat.loadSpecFromFile env source f base = Except.error e →
      Flat.processFiles env source base (fs1 ++ f :: fs2) =
        ((Flat.processFiles env source base fs1).1 ++ (Flat.processFiles env source base fs2).1,
         (Flat.processFiles env source base fs1).2 ++
           warnMsg e :: (Flat.processFiles env source base fs2).2)) ∧
    (∀ (env : FsEnv) (base : Flat.BaseConfig) (ps qs : List Flat.PathConfig),
      Flat.loadSpecsFromPath env (ps ++ qs) base =
        ((Flat.loadSpecsFromPath env ps base).1 ++ (Flat.loadSpecsFromPath env qs base).1,
         (Flat.loadSpecsFromPath env ps base).2 ++ (Flat.loadSpecsFromPath env qs base).2)) ∧
    (∀ (env : FsEnv) (merged : Structured.PathConfig) (fs1 fs2 : List String)
        (f : String) (e : JsError),
      Structured.loadSpecFromFile env merged f = Except.error e →
      ∃ e2, Structured.loadFiles env merged (fs1 ++ f :: fs2) = Except.error e2) := by
  refine ⟨?_, loadSpecsFromPath_append, ?_⟩
  · intro env source base fs1 fs2 f e he
    rw [processFiles_append]
    simp only [Flat.processFiles, he]
  · intro env merged fs1 fs2 f e he
    induction fs1 with
    | nil =>
      exact ⟨e, by simp [Structured.loadFiles, he]⟩
    | cons g gs ih =>
      obtain ⟨e2, he2⟩ := ih
      cases hg : Structured.loadSpecFromFile env merged g with
      | error eg => exact ⟨eg, by simp [Structured.loadFiles, hg]⟩
      | ok c => exact ⟨e2, by simp [Structured.loadFiles, hg, he2]⟩

/-- Claim C3, counterexample to the claim as stated: in the structured
variant (also cited by the claim) a single failing file rejects the whole
per-path load instead of contributing zero results — the sibling file
`a.json` is lost. -/
theorem perFile_error_isolation_cex :
    Structured.loadSpecsFromPath envLoadFix [ srcGoodS ] {} =
      Except.error (JsError.errObj "parse failed") := by
  exact rfl

/-- Claim C3, witness: on the same environment the flat variant keeps the
sibling file's spec, logs the failing file's message, and completes. -/
theorem perFile_error_isolation_witness :
    Flat.processFiles envLoadFix srcGoodF {} ([ "a.json" ] ++ "bad.json" :: []) =
      ((Flat.processFiles envLoadFix srcGoodF {} [ "a.json" ]).1 ++
         (Flat.processFiles envLoadFix srcGoodF {} []).1,
       (Flat.processFiles envLoadFix srcGoodF {} [ "a.json" ]).2 ++
         warnMsg (JsError.errObj "read failed") :: (Flat.processFiles envLoadFix srcGoodF {} []).2) ∧
    (Flat.processFiles envLoadFix srcGoodF {} [ "a.json", "bad.json" ]).1.length = 1 ∧
    (Flat.processFiles envLoadFix srcGoodF {} [ "a.json", "bad.json" ]).2 = [ "read failed" ] := by
  refine ⟨?_, by decide, by decide⟩
  exact perFile_error_isolation.1 envLoadFix srcGoodF {} [ "a.json" ] [] "bad.json"
    (JsError.errObj "read failed") rfl

theorem loadSpecsFromPath_error_mono (env : FsEnv) (base : Structured.SourcelessConfig)
    (q : Structured.PathConfig) (qs : List Structured.PathConfig) (e : JsError)
    (he : Structured.loadSpecsFromPath env qs base = Except.error e) :
    ∃ e2, Structured.loadSpecsFromPath env (q :: qs) base = Except.error e2 := by
  unfold Structured.loadSpecsFromPath
  cases hs : env.stat q.path with
  | none => exact ⟨JsError.errObj ( "ENOENT: no such file or directory, stat " ++ q.path), rfl⟩
  | some kind =>
    rw [he]
    cases hl : Structured.loadFiles env (Structured.mergedPathConfig q base)
        (Structured.sourceFiles env q kind) with
    | error e3 =>
      refine ⟨e3, ?_⟩
      dsimp only
      rw [hl]
    | ok specs =>
      refine ⟨e, ?_⟩
      dsimp only
      rw [hl]

/-- Claim C6 (amended).  In the flat variant a non-existent source path
yields an empty file sequence (globby finds nothing in a missing cwd) and the
source contributes neither specs nor warnings — no warning is logged for it,
only the per-path info count — while every other source proceeds and
contributes its results; the load is total and cannot fail.  In the
structured variant the unguarded `fsp.stat` rejection on a missing path makes
the whole `loadSpecsFromPath` reject instead. -/
theorem missing_path_soft_fail :
    (∀ (env : FsEnv), env.wf → ∀ (base : Flat.BaseConfig) (p : Flat.PathConfig)
        (rest : List Flat.PathConfig),
      env.stat p.path = none →
      Flat.findSpecFiles env p = [] ∧
      Flat.loadSpecsFromPath env (p :: rest) base = Flat.loadSpecsFromPath env rest base) ∧
    (∀ (env : FsEnv) (base : Structured.SourcelessConfig)
        (paths : List Structured.PathConfig) (p : Structured.PathConfig),
      p ∈ paths → env.stat p.path = none →
      ∃ e, Structured.loadSpecsFromPath env paths base = Except.error e) := by
  constructor
  · intro env hwf base p rest hstat
    have hfiles : Flat.findSpecFiles env p = [] := hwf p.path hstat
    refine ⟨hfiles, ?_⟩
    simp [Flat.loadSpecsFromPath, hfiles, Flat.processFiles]
  · intro env base paths p hmem hstat
    induction paths with
    | nil => cases hmem
    | cons q qs ih =>
      cases hq : env.stat q.path with
      | none =>
        refine ⟨JsError.errObj ( "ENOENT: no such file or directory, stat " ++ q.path), ?_⟩
        unfold Structured.loadSpecsFromPath
        rw [hq]
      | some kind =>
        rcases List.mem_cons.mp hmem with hpq | hmem2
        · rw [hpq] at hstat
          rw [hstat] at hq
          cases hq
        · obtain ⟨e, he⟩ := ih hmem2
          exact loadSpecsFromPath_error_mono env base q qs e he

/-- Claim C6, counterexample to the claim as stated: with a missing first
path, the structured variant's whole load fails with the stat rejection, and
the existing second source contributes nothing. -/
theorem missing_path_soft_fail_cex :
    Structured.loadSpecsFromPath envLoadFix [ srcMissingS, srcGoodS ] {} =
      Except.error (JsError.errObj "ENOENT: no such file or directory, stat missing") := by
  exact rfl

/-- Claim C6, witness: on the same environment the flat variant skips the
missing source entirely (no files, no extra warnings) and the good source
still contributes. -/
theorem missing_path_soft_fail_witness :
    Flat.findSpecFiles envLoadFix srcMissingF = [] ∧
    Flat.loadSpecsFromPath envLoadFix [ srcMissingF, srcGoodF ] {} =
      Flat.loadSpecsFromPath envLoadFix [ srcGoodF ] {} ∧
    (Flat.loadSpecsFromPath envLoadFix [ srcMissingF, srcGoodF ] {}).1.length = 1 := by
  have hwf : envLoadFix.wf := by
    intro p hp
    simp only [envLoadFix] at hp ⊢
    by_cases h : p = "good"
    · simp [h] at hp
    · simp [h]
  have h := missing_path_soft_fail.1 envLoadFix hwf {} srcMissingF [ srcGoodF ] rfl
  exact ⟨h.1, h.2, by decide⟩

/-! ### Facts about the dropdown scan of `addToNav` -/

theorem dropsLabeled_nil (L : String) : dropsLabeled L [] = [] := rfl

theorem dropsLabeled_cons_entry (L l d p : String) (rest : List NavItem) :
    dropsLabeled L (NavItem.entry l d p :: rest) = dropsLabeled L rest := by
  simp [dropsLabeled, List.filter, isDropLabeled]

theorem dropsLabeled_cons_dropdown (L l : String) (its : List NavItem) (p : String)
    (rest : List NavItem) :
    dropsLabeled L (NavItem.dropdown l its p :: rest) =
      (if l = L then [ NavItem.dropdown l its p ] else []) ++ dropsLabeled L rest := by
  by_cases h : l = L <;> simp [dropsLabeled, List.filter, isDropLabeled, h]

theorem dropsLabeled_append (L : String) (xs ys : List NavItem) :
    dropsLabeled L (xs ++ ys) = dropsLabeled L xs ++ dropsLabeled L ys := by
  simp [dropsLabeled, List.filter_append]

theorem dropsLabeled_addToNavCat (specNav : NavItem) (c L : String) (items : List NavItem) :
    (dropsLabeled L (addToNavCat specNav c items)).length =
      (if L = c then max (dropsLabeled L items).length 1 else (dropsLabeled L items).length) := by
  induction items with
  | nil =>
    by_cases h : L = c
    · subst h
      simp [addToNavCat, dropsLabeled, List.filter, isDropLabeled]
    · have h2 : ¬ c = L := fun hc => h hc.symm
      simp [addToNavCat, dropsLabeled, List.filter, isDropLabeled, h, h2]
  | cons item rest ih =>
    cases item with
    | entry l d p =>
      rw [show addToNavCat specNav c (NavItem.entry l d p :: rest) =
        NavItem.entry l d p :: addToNavCat specNav c rest from rfl]
      rw [dropsLabeled_cons_entry, dropsLabeled_cons_entry, ih]
    | dropdown l its p =>
      by_cases hl : l = c
      · subst hl
        rw [show addToNavCat specNav l (NavItem.dropdown l its p :: rest) =
          NavItem.dropdown l (its ++ [ specNav ]) p :: rest from by simp [addToNavCat]]
        rw [dropsLabeled_cons_dropdown, dropsLabeled_cons_dropdown]
        by_cases hL : l = L
        · subst hL
          simp
        · have hL2 : ¬ L = l := fun hc => hL hc.symm
          simp only [if_neg hL, if_neg hL2, List.nil_append]
      · rw [show addToNavCat specNav c (NavItem.dropdown l its p :: rest) =
          NavItem.dropdown l its p :: addToNavCat specNav c rest from by simp [addToNavCat, hl]]
        rw [dropsLabeled_cons_dropdown, dropsLabeled_cons_dropdown]
        simp only [List.length_append]
        rw [ih]
        by_cases hL : l = L
        · have hLc : ¬ L = c := fun hc => hl (hL.trans hc)
          simp [hL, hLc]
        · by_cases hc : L = c <;> simp [hL, hc, hl]

theorem addToNavCat_not_found (specNav : NavItem) (c : String) (items : List NavItem)
    (h : dropsLabeled c items = []) :
    addToNavCat specNav c items = items ++ [ NavItem.dropdown c [ specNav ] "left" ] := by
  induction items with
  | nil => rfl
  | cons item rest ih =>
    cases item with
    | entry l d p =>
      rw [dropsLabeled_cons_entry] at h
      rw [show addToNavCat specNav c (NavItem.entry l d p :: rest) =
        NavItem.entry l d p :: addToNavCat specNav c rest from rfl, ih h]
      rfl
    | dropdown l its p =>
      rw [dropsLabeled_cons_dropdown] at h
      rcases List.append_eq_nil.mp h with ⟨h1, h2⟩
      have hl : ¬ l = c := by
        intro he
        rw [if_pos he] at h1
        cases h1
      rw [show addToNavCat specNav c (NavItem.dropdown l its p :: rest) =
        NavItem.dropdown l its p :: addToNavCat specNav c rest from by simp [addToNavCat, hl],
        ih h2]
      rfl

theorem addToNavCat_found_last (specNav : NavItem) (c : String) (xs : List NavItem)
    (its : List NavItem) (p : String) (h : dropsLabeled c xs = []) :
    addToNavCat specNav c (xs ++ [ NavItem.dropdown c its p ]) =
      xs ++ [ NavItem.dropdown c (its ++ [ specNav ]) p ] := by
  induction xs with
  | nil => simp [addToNavCat]
  | cons item rest ih =>
    cases item with
    | entry l d p2 =>
      rw [dropsLabeled_cons_entry] at h
      rw [List.cons_append, show addToNavCat specNav c
        (NavItem.entry l d p2 :: (rest ++ [ NavItem.dropdown c its p ])) =
        NavItem.entry l d p2 :: addToNavCat specNav c (rest ++ [ NavItem.dropdown c its p ])
        from rfl, ih h]
      rfl
    | dropdown l its2 p2 =>
      rw [dropsLabeled_cons_dropdown] at h
      rcases List.append_eq_nil.mp h with ⟨h1, h2⟩
      have hl : ¬ l = c := by
        intro he
        rw [if_pos he] at h1
        cases h1
      rw [List.cons_append, show addToNavCat specNav c
        (NavItem.dropdown l its2 p2 :: (rest ++ [ NavItem.dropdown c its p ])) =
        NavItem.dropdown l its2 p2 :: addToNavCat specNav c (rest ++ [ NavItem.dropdown c its p ])
        from by simp [addToNavCat, hl], ih h2]
      rfl

/-- Claim C9 (confirmed).  Both variants of `addToNav` preserve the
invariant that the navigation bar holds at most one dropdown per label, and
adding two entries with the same category to a bar holding no dropdown of
that label produces exactly one dropdown node — labelled with the category
and containing both child entries in insertion order — never two. -/
theorem nav_dropdown_unique :
    (∀ (items : List NavItem) (cfg : Flat.SpecConfig),
      (∀ L, (dropsLabeled L items).length ≤ 1) →
      ∀ L, (dropsLabeled L (Flat.addToNav items cfg)).length ≤ 1) ∧
    (∀ (items : List NavItem) (cfg : Structured.SpecConfig),
      (∀ L, (dropsLabeled L items).length ≤ 1) →
      ∀ L, (dropsLabeled L (Structured.addToNav items cfg)).length ≤ 1) ∧
    (∀ (items : List NavItem) (c : String) (cfg1 cfg2 : Flat.SpecConfig),
      dropsLabeled c items = [] →
      cfg1.category = some c → cfg2.category = some c → c ≠ "" →
      truthyS cfg1.label → truthyS cfg1.routePath →
      truthyS cfg2.label → truthyS cfg2.routePath →
      dropsLabeled c (Flat.addToNav (Flat.addToNav items cfg1) cfg2) =
        [ NavItem.dropdown c
            [ NavItem.entry (strFalsyD cfg1.label) (strFalsyD cfg1.routePath) "left",
              NavItem.entry (strFalsyD cfg2.label) (strFalsyD cfg2.routePath) "left" ] "left" ]) := by
  have hcat : ∀ (specNav : NavItem) (c : String) (items : List NavItem),
      (∀ L, (dropsLabeled L items).length ≤ 1) →
      ∀ L, (dropsLabeled L (addToNavCat specNav c items)).length ≤ 1 := by
    intro specNav c items h L
    rw [dropsLabeled_addToNavCat]
    by_cases hL : L = c
    · rw [if_pos hL]
      exact max_le (h L) (by omega)
    · rw [if_neg hL]
      exact h L
  have happend : ∀ (items : List NavItem) (l d p : String),
      (∀ L, (dropsLabeled L items).length ≤ 1) →
      ∀ L, (dropsLabeled L (items ++ [ NavItem.entry l d p ])).length ≤ 1 := by
    intro items l d p h L
    rw [dropsLabeled_append, dropsLabeled_cons_entry, dropsLabeled_nil, List.append_nil]
    exact h L
  refine ⟨?_, ?_, ?_⟩
  · intro items cfg h L
    unfold Flat.addToNav
    split
    · split
      · exact hcat _ _ items h L
      · exact happend items _ _ _ h L
    · exact h L
  · intro items cfg h L
    unfold Structured.addToNav
    split
    · exact h L
    · split
      · split
        · exact hcat _ _ items h L
        · exact happend items _ _ _ h L
      · exact h L
  · intro items c cfg1 cfg2 hnone hc1 hc2 hcne hl1 hr1 hl2 hr2
    have hstep1 : Flat.addToNav items cfg1 =
        items ++ [ NavItem.dropdown c
          [ NavItem.entry (strFalsyD cfg1.label) (strFalsyD cfg1.routePath) "left" ] "left" ] := by
      unfold Flat.addToNav
      rw [if_pos (by simp [hl1, hr1]), if_pos (by simp [hc1, truthyS, hcne])]
      rw [show strFalsyD cfg1.category = c from by rw [hc1]; rfl]
      exact addToNavCat_not_found _ c items hnone
    have hstep2 : Flat.addToNav (Flat.addToNav items cfg1) cfg2 =
        items ++ [ NavItem.dropdown c
          [ NavItem.entry (strFalsyD cfg1.label) (strFalsyD cfg1.routePath) "left",
            NavItem.entry (strFalsyD cfg2.label) (strFalsyD cfg2.routePath) "left" ] "left" ] := by
      rw [hstep1]
      unfold Flat.addToNav
      rw [if_pos (by simp [hl2, hr2]), if_pos (by simp [hc2, truthyS, hcne])]
      rw [show strFalsyD cfg2.category = c from by rw [hc2]; rfl]
      exact addToNavCat_found_last _ c items _ _ hnone
    rw [hstep2, dropsLabeled_append, hnone, List.nil_append,
      dropsLabeled_cons_dropdown, if_pos rfl]
    rfl

/-- Claim C9, witness: two concrete entries of the `Pets` category added to
an empty navigation bar produce one `Pets` dropdown with both children, and
the at-most-one-dropdown invariant holds afterwards. -/
theorem nav_dropdown_unique_witness :
    dropsLabeled "Pets" (Flat.addToNav (Flat.addToNav [] cfgNav1) cfgNav2) =
      [ NavItem.dropdown "Pets"
          [ NavItem.entry "Store API" "/pets/store" "left",
            NavItem.entry "User API" "/pets/user" "left" ] "left" ] ∧
    (dropsLabeled "Pets" (Flat.addToNav [] cfgNav1)).length ≤ 1 := by
  constructor
  · exact nav_dropdown_unique.2.2 [] "Pets" cfgNav1 cfgNav2 rfl rfl rfl
      (by decide) (by decide) (by decide) (by decide) (by decide)
  · exact nav_dropdown_unique.1 [] cfgNav1
      (fun L => by rw [dropsLabeled_nil]; exact Nat.zero_le 1) "Pets"

/-! ### Facts about the split/join string primitives -/

theorem splitCharAux_of_not_mem (sep : Char) (l acc : List Char) (h : sep ∉ l) :
    splitCharAux sep l acc = [ acc.reverse ++ l ] := by
  induction l generalizing acc with
  | nil => simp [splitCharAux]
  | cons c cs ih =>
    have hc : ¬ c = sep := fun he => h (he ▸ List.mem_cons_self c cs)
    have hcs : sep ∉ cs := fun hm => h (List.mem_cons_of_mem c hm)
    rw [show splitCharAux sep (c :: cs) acc = splitCharAux sep cs (c :: acc) from by
      simp [splitCharAux, hc], ih (c :: acc) hcs]
    simp

theorem splitChar_eq_single (sep : Char) (s : String) (h : sep ∉ s.data) :
    splitChar sep s = [ s ] := by
  unfold splitChar
  rw [splitCharAux_of_not_mem sep s.data [] h]
  simp

theorem not_mem_of_mem_splitCharAux (sep : Char) (l acc : List Char)
    (hacc : sep ∉ acc) (w : List Char) (hw : w ∈ splitCharAux sep l acc) : sep ∉ w := by
  induction l generalizing acc with
  | nil =>
    simp [splitCharAux] at hw
    subst hw
    simp [hacc]
  | cons c cs ih =>
    by_cases hc : c = sep
    · rw [show splitCharAux sep (c :: cs) acc = acc.reverse :: splitCharAux sep cs [] from by
        simp [splitCharAux, hc]] at hw
      rcases List.mem_cons.mp hw with hw1 | hw2
      · subst hw1
        simp [hacc]
      · exact ih [] (by simp) hw2
    · rw [show splitCharAux sep (c :: cs) acc = splitCharAux sep cs (c :: acc) from by
        simp [splitCharAux, hc]] at hw
      have hsc : ¬ sep = c := fun he => hc he.symm
      exact ih (c :: acc) (by simp [hacc, hsc]) hw

theorem not_mem_of_mem_splitChar (sep : Char) (s : String) (piece : String)
    (hp : piece ∈ splitChar sep s) : sep ∉ piece.data := by
  unfold splitChar at hp
  rcases List.mem_map.mp hp with ⟨w, hw, hws⟩
  have := not_mem_of_mem_splitCharAux sep s.data [] (by simp) w hw
  rw [← hws]
  exact this

theorem splitCharAux_append (sep : Char) (l1 l2 acc : List Char) (h : sep ∉ l1) :
    splitCharAux sep (l1 ++ l2) acc = splitCharAux sep l2 (l1.reverse ++ acc) := by
  induction l1 generalizing acc with
  | nil => simp
  | cons c cs ih =>
    have hc : ¬ c = sep := fun he => h (he ▸ List.mem_cons_self c cs)
    have hcs : sep ∉ cs := fun hm => h (List.mem_cons_of_mem c hm)
    rw [List.cons_append, show splitCharAux sep (c :: (cs ++ l2)) acc =
      splitCharAux sep (cs ++ l2) (c :: acc) from by simp [splitCharAux, hc], ih (c :: acc) hcs]
    simp

theorem flatten_map_singleton {α : Type} (xs : List α) :
    (xs.map (fun x => [x])).flatten = xs := by
  induction xs with
  | nil => rfl
  | cons x xs ih => simp [ih]

/-! ### The kebab-case output contains no character the input did not have
(besides the dash) -/

theorem mem_uniWordsAux_subset (fuel : Nat) :
    ∀ (l : List Char) (w : List Char), w ∈ uniWordsAux fuel l → ∀ c ∈ w, c ∈ l := by
  induction fuel with
  | zero =>
    intro l w hw
    simp [uniWordsAux] at hw
  | succ fuel ih =>
    intro l w hw c hc
    cases l with
    | nil => simp [uniWordsAux] at hw
    | cons a as =>
      by_cases hn : uniTokenLen (a :: as) = 0
      · rw [show uniWordsAux (fuel + 1) (a :: as) = uniWordsAux fuel as from by
          simp [uniWordsAux, hn]] at hw
        exact List.mem_cons_of_mem a (ih as w hw c hc)
      · rw [show uniWordsAux (fuel + 1) (a :: as) =
          (a :: as).take (uniTokenLen (a :: as)) ::
            uniWordsAux fuel ((a :: as).drop (uniTokenLen (a :: as))) from by
          simp [uniWordsAux, hn]] at hw
        rcases List.mem_cons.mp hw with hw1 | hw2
        · subst hw1
          exact List.take_subset _ _ hc
        · exact List.drop_subset _ _ (ih _ w hw2 c hc)

theorem mem_asciiWordsAux_subset :
    ∀ (l acc : List Char) (w : List Char), w ∈ asciiWordsAux l acc →
      ∀ c ∈ w, c ∈ l ∨ c ∈ acc := by
  intro l
  induction l with
  | nil =>
    intro acc w hw c hc
    by_cases ha : acc.isEmpty <;> simp [asciiWordsAux, ha] at hw
    subst hw
    exact Or.inr (List.mem_reverse.mp hc)
  | cons a as ih =>
    intro acc w hw c hc
    by_cases hal : isAlnum a
    · rw [show asciiWordsAux (a :: as) acc = asciiWordsAux as (a :: acc) from by
        simp [asciiWordsAux, hal]] at hw
      rcases ih (a :: acc) w hw c hc with h1 | h2
      · exact Or.inl (List.mem_cons_of_mem a h1)
      · rcases List.mem_cons.mp h2 with h3 | h4
        · exact Or.inl (h3 ▸ List.mem_cons_self a as)
        · exact Or.inr h4
    · rw [show asciiWordsAux (a :: as) acc =
        (if acc.isEmpty then [] else [ acc.reverse ]) ++ asciiWordsAux as [] from by
        simp [asciiWordsAux, hal]] at hw
      rcases List.mem_append.mp hw with hw1 | hw2
      · by_cases ha : acc.isEmpty <;> simp [ha] at hw1
        subst hw1
        exact Or.inr (List.mem_reverse.mp hc)
      · rcases ih [] w hw2 c hc with h1 | h2
        · exact Or.inl (List.mem_cons_of_mem a h1)
        · simp at h2

theorem mem_wordsOf_subset (l : List Char) (w : List Char) (hw : w ∈ wordsOf l) :
    ∀ c ∈ w, c ∈ l := by
  unfold wordsOf at hw
  by_cases h : hasUW l
  · rw [if_pos h] at hw
    exact mem_uniWordsAux_subset l.length l w hw
  · rw [if_neg h] at hw
    intro c hc
    rcases mem_asciiWordsAux_subset l [] w hw c hc with h1 | h2
    · exact h1
    · simp at h2

theorem toLowerChar_ne_slash (c : Char) (h : ¬ c = '/') : ¬ toLowerChar c = '/' := by
  unfold toLowerChar
  split <;> first | decide | exact h

theorem mem_joinDashChars (ws : List (List Char)) (c : Char) (hc : c ∈ joinDashChars ws) :
    (∃ w ∈ ws, c ∈ w) ∨ c = '-' := by
  induction ws with
  | nil => simp [joinDashChars] at hc
  | cons w ws ih =>
    cases ws with
    | nil =>
      simp only [joinDashChars] at hc
      exact Or.inl ⟨w, List.mem_cons_self w [], hc⟩
    | cons v vs =>
      rw [show joinDashChars (w :: v :: vs) = w ++ '-' :: joinDashChars (v :: vs) from rfl] at hc
      rcases List.mem_append.mp hc with h1 | h2
      · exact Or.inl ⟨w, List.mem_cons_self w (v :: vs), h1⟩
      · rcases List.mem_cons.mp h2 with h3 | h4
        · exact Or.inr h3
        · rcases ih h4 with ⟨w2, hw2, hcw2⟩ | h5
          · exact Or.inl ⟨w2, List.mem_cons_of_mem w hw2, hcw2⟩
          · exact Or.inr h5

theorem kebabCase_no_slash (s : String) (h : '/' ∉ s.data) :
    '/' ∉ (kebabCase s).data := by
  intro hmem
  unfold kebabCase at hmem
  simp only [String.data] at hmem
  rcases mem_joinDashChars _ '/' hmem with ⟨w, hw, hcw⟩ | hdash
  · rcases List.mem_map.mp hw with ⟨w0, hw0, hw0e⟩
    rw [← hw0e] at hcw
    rcases List.mem_map.mp hcw with ⟨c0, hc0, hc0e⟩
    have hc0s : c0 ∈ s.data := List.mem_of_mem_filter (mem_wordsOf_subset _ w0 hw0 c0 hc0)
    have : ¬ c0 = '/' := fun he => h (he ▸ hc0s)
    exact toLowerChar_ne_slash c0 this hc0e
  · cases hdash

/-! ### Characterization of `posixJoin` on an absolute prefix followed by
slash-free segments -/

theorem mk_data (s : String) : String.mk s.data = s := rfl

theorem map_mk_map_data (xs : List String) :
    (xs.map String.data).map String.mk = xs := by
  rw [List.map_map]
  have h : ∀ s ∈ xs, (String.mk ∘ String.data) s = id s := fun s _ => rfl
  rw [List.map_congr_left h, List.map_id]

theorem splitCharAux_joinSegsChars :
    ∀ (xs : List String), xs ≠ [] → (∀ x ∈ xs, '/' ∉ x.data) →
      splitCharAux '/' (joinSegsChars (xs.map String.data)) [] = xs.map String.data := by
  intro xs
  induction xs with
  | nil => intro h; cases h rfl
  | cons x rest ih =>
    intro _ hfree
    cases rest with
    | nil =>
      rw [show joinSegsChars ([x].map String.data) = x.data from rfl,
        splitCharAux_of_not_mem '/' x.data [] (hfree x (List.mem_cons_self x []))]
      simp
    | cons y ys =>
      have hx : '/' ∉ x.data := hfree x (List.mem_cons_self x (y :: ys))
      have hrest : ∀ z ∈ y :: ys, '/' ∉ z.data :=
        fun z hz => hfree z (List.mem_cons_of_mem x hz)
      rw [show joinSegsChars ((x :: y :: ys).map String.data) =
        x.data ++ '/' :: joinSegsChars ((y :: ys).map String.data) from rfl,
        splitCharAux_append '/' x.data _ [] hx,
        show splitCharAux '/' ('/' :: joinSegsChars ((y :: ys).map String.data))
            (x.data.reverse ++ []) =
          (x.data.reverse ++ []).reverse ::
            splitCharAux '/' (joinSegsChars ((y :: ys).map String.data)) [] from by
          simp [splitCharAux],
        ih (by simp) hrest]
      simp

theorem splitChar_slash_join (xs : List String) (hne : xs ≠ [])
    (hfree : ∀ x ∈ xs, '/' ∉ x.data) :
    splitChar '/' ( "/" ++ joinSegs xs) = "" :: xs := by
  unfold splitChar
  rw [show ( "/" ++ joinSegs xs).data = '/' :: joinSegsChars (xs.map String.data) from by
    rw [String.data_append]; rfl]
  rw [show splitCharAux '/' ('/' :: joinSegsChars (xs.map String.data)) [] =
    [] :: splitCharAux '/' (joinSegsChars (xs.map String.data)) [] from by simp [splitCharAux]]
  rw [splitCharAux_joinSegsChars xs hne hfree]
  rw [List.map_cons, map_mk_map_data]

theorem posixSegs_slash_cons (ys : List String)
    (hmem : ∀ y ∈ ys, y ≠ "" ∧ '/' ∉ y.data) :
    posixSegs ( "/" :: ys) = ys := by
  unfold posixSegs
  rw [List.map_cons,
    show splitChar '/' "/" = [ "", "" ] from rfl,
    List.map_congr_left (fun y hy => splitChar_eq_single '/' y (hmem y hy).2)]
  rw [List.flatten_cons, flatten_map_singleton]
  rw [show List.filter (fun q => q != "") ([ "", "" ] ++ ys) = List.filter (fun q => q != "") ys
    from by rw [List.filter_append]; simp]
  exact List.filter_eq_self.mpr (fun y hy => by
    have := (hmem y hy).1
    simpa using this)

theorem posixJoin_slash_cons (ys : List String) (hfree : ∀ y ∈ ys, '/' ∉ y.data) :
    (ys.filter (fun y => y != "") = [] → posixJoin ( "/" :: ys) = "/") ∧
    (ys.filter (fun y => y != "") ≠ [] →
      posixJoin ( "/" :: ys) = "/" ++ joinSegs (ys.filter (fun y => y != "")) ∧
      splitChar '/' (posixJoin ( "/" :: ys)) = "" :: ys.filter (fun y => y != "")) := by
  have hmem : ∀ y ∈ ys.filter (fun y => y != ""), y ≠ "" ∧ '/' ∉ y.data := by
    intro y hy
    refine ⟨?_, hfree y (List.mem_of_mem_filter hy)⟩
    have := List.of_mem_filter hy
    simpa using this
  have hfilter : ( "/" :: ys).filter (fun p => p != "") =
      "/" :: ys.filter (fun y => y != "") := by
    rw [List.filter_cons]
    simp
  have hjoin : posixJoin ( "/" :: ys) =
      posixAssemble
        (decide ((( "/" :: ys.filter (fun y => y != "")).headD "").data.head? = some '/'))
        (posixSegs ( "/" :: ys.filter (fun y => y != "")))
        (decide ((( "/" :: ys.filter (fun y => y != "")).getLastD "").data.getLast? =
          some '/')) := by
    unfold posixJoin
    rw [hfilter]
  have habs : decide ((( "/" :: ys.filter (fun y => y != "")).headD "").data.head? =
      some '/') = true := by
    rfl
  have hsegs : posixSegs ( "/" :: ys.filter (fun y => y != "")) =
      ys.filter (fun y => y != "") := posixSegs_slash_cons _ hmem
  constructor
  · intro hnil
    rw [hjoin, hsegs, hnil]
    rfl
  · intro hne
    rcases List.eq_nil_or_concat (ys.filter (fun y => y != "")) with hnil | ⟨zs, z, hzs⟩
    · exact absurd hnil hne
    have hz : z ∈ ys.filter (fun y => y != "") := by
      rw [hzs, List.concat_eq_append]
      simp
    have hzprop := hmem z hz
    have hlastD : (( "/" :: ys.filter (fun y => y != "")).getLastD "") = z := by
      rw [hzs, List.concat_eq_append,
        show ( "/" :: (zs ++ [z])) = ( "/" :: zs) ++ [z] from by simp,
        List.getLastD_concat]
    have htrail : decide ((( "/" :: ys.filter (fun y => y != "")).getLastD "").data.getLast? =
        some '/') = false := by
      rw [hlastD]
      apply decide_eq_false
      intro hlast
      have hzne : z.data ≠ [] := by
        intro hd
        apply hzprop.1
        rw [← mk_data z, hd]
      rw [List.getLast?_eq_getLast_of_ne_nil hzne] at hlast
      have hlc : z.data.getLast hzne = '/' := Option.some.inj hlast
      exact hzprop.2 (hlc ▸ List.getLast_mem hzne)
    have hassemble : posixJoin ( "/" :: ys) =
        "/" ++ joinSegs (ys.filter (fun y => y != "")) := by
      rw [hjoin, hsegs, habs, htrail]
      unfold posixAssemble
      rw [if_neg (by simp [hne]), if_pos rfl, if_neg (by simp)]
      simp
    refine ⟨hassemble, ?_⟩
    rw [hassemble]
    exact splitChar_slash_join _ hne (fun x hx => (hmem x hx).2)

theorem derivedSegs_slash_free (cfg : Structured.SpecConfig) (doc : OpenAPIDoc) :
    ∀ y ∈ Structured.derivedSegs cfg doc, '/' ∉ y.data := by
  intro y hy
  unfold Structured.derivedSegs at hy
  rcases List.mem_flatten.mp hy with ⟨l, hl, hyl⟩
  rcases List.mem_map.mp hl with ⟨seg, _, hsegl⟩
  rw [← hsegl] at hyl
  rcases List.mem_map.mp hyl with ⟨piece, hpiece, hpy⟩
  rw [← hpy]
  exact kebabCase_no_slash piece (not_mem_of_mem_splitChar '/' seg piece hpiece)

/-- Claim C4 (amended).  In the structured variant the derived route is the
configured route segments plus (when `routeFromSpec` is truthy) the
title-derived segment, every segment independently kebab-cased; the
normalized route splits on `/` into exactly one empty leading component (one
leading `/`, never two) followed by precisely the non-empty kebab-cased
segments, with nothing after the last segment (when every segment is empty
the route is `/`).  lodash `kebabCase` also breaks at letter/digit
boundaries, so the title `"My API v2"` under the configured base route
`"docs"` yields `"/docs/my-api-v-2"`, not `"/docs/my-api-v2"`; and in the
flat variant `path.join(..., "/")` leaves a trailing slash after the last
segment. -/
theorem route_normalization :
    (∀ (cfg : Structured.SpecConfig) (doc : OpenAPIDoc) (out : Structured.SpecConfig),
      Structured.contentOf cfg = some doc →
      Structured.loadSpecFromContent cfg = Except.ok out →
      ∃ r, out.route = some { route := some r } ∧
        ((Structured.derivedSegs cfg doc).filter (fun s => s != "") = [] → r = "/") ∧
        ((Structured.derivedSegs cfg doc).filter (fun s => s != "") ≠ [] →
          splitChar '/' r = "" :: (Structured.derivedSegs cfg doc).filter (fun s => s != ""))) ∧
    (Structured.loadSpecFromContent cfgC4fix).map (fun c => c.route.bind (fun ro => ro.route)) =
      Except.ok (some "/docs/my-api-v-2") ∧
    (Flat.loadSpecFromContent envInert cfgC4flat).map (fun c => c.routePath) =
      Except.ok (some "/docs/my-api-v-2/") := by
  refine ⟨?_, rfl, rfl⟩
  intro cfg doc out hdoc hload
  unfold Structured.loadSpecFromContent at hload
  rw [hdoc] at hload
  simp at hload
  refine ⟨posixJoin ( "/" :: Structured.derivedSegs cfg doc), ?_, ?_, ?_⟩
  · rw [← hload]
  · intro hnil
    exact (posixJoin_slash_cons _ (derivedSegs_slash_free cfg doc)).1 hnil
  · intro hne
    exact ((posixJoin_slash_cons _ (derivedSegs_slash_free cfg doc)).2 hne).2

/-- Claim C4, counterexample to the claim as stated: the claim's example
value is wrong — the derived route for title `"My API v2"` under base route
`"docs"` is `"/docs/my-api-v-2"` (lodash kebab-case splits `v2`), which is
not the claimed `"/docs/my-api-v2"`. -/
theorem route_normalization_cex :
    (Structured.loadSpecFromContent cfgC4fix).map (fun c => c.route.bind (fun ro => ro.route)) =
      Except.ok (some "/docs/my-api-v-2") ∧
    (some "/docs/my-api-v-2" : Option String) ≠ some "/docs/my-api-v2" := by
  exact ⟨rfl, by decide⟩

/-- Claim C4, witness: the general normalization applied to the concrete
fixture — the route of `cfgC4fix` splits into the leading empty component
followed by exactly the kebab-cased segments `docs` and `my-api-v-2`. -/
theorem route_normalization_witness :
    splitChar '/' "/docs/my-api-v-2" = [ "", "docs", "my-api-v-2" ] := by
  obtain ⟨r, hr, -, h2⟩ := route_normalization.1 cfgC4fix { title := some "My API v2" } _ rfl rfl
  simp at hr
  have h3 := h2 (by decide)
  rw [← hr] at h3
  simpa using h3
